import Mathlib

/-!
Verification of the core of a traffic-obfuscating multipath relay written in
Python: the frame codec and fragment reassembler (`frames.py`), the protocol
family registry (`profiles.py`, `obfuscation.py`), the shaping engine
(`behavior.py`) and the strategy controller (`strategy.py`).

Embedding conventions:
* byte strings are `List ℕ` (each entry one byte);
* Python `float` values are modelled as exact rationals `ℚ`;
* Python `int(x)` truncation toward zero on a float is `pyInt`;
* calls to the `random` module become explicit parameters (the drawn values
  are handed to the function);
* code that can raise (`readexactly` on a short stream, `KeyError` on a
  missing dict key) returns an `Option`.
-/

set_option autoImplicit false

namespace Spec2Proof

/-- Python `int(x)` for a rational `x`: truncation toward zero. -/
def pyInt (q : ℚ) : ℤ := if 0 ≤ q then ⌊q⌋ else ⌈q⌉

theorem pyInt_of_nonneg {q : ℚ} (h : 0 ≤ q) : pyInt q = ⌊q⌋ := by
  simp [pyInt, h]

/-! ## Big-endian packing (the `struct` module with format `!`) -/

/-- Big-endian bytes of an unsigned integer, `w` bytes wide
(`struct.pack` of one unsigned field; values are reduced mod `256 ^ w`,
which agrees with `struct.pack` on all in-range values). -/
def beBytes : ℕ → ℕ → List ℕ
  | 0, _ => []
  | w + 1, n => (n / 256 ^ w % 256) :: beBytes w n

/-- Big-endian value of a byte string (`struct.unpack` of one unsigned field). -/
def beVal (l : List ℕ) : ℕ := l.foldl (fun acc b => acc * 256 + b) 0

@[simp] theorem beBytes_length (w n : ℕ) : (beBytes w n).length = w := by
  induction w generalizing n with
  | zero => rfl
  | succ w ih => simp [beBytes, ih]

theorem beVal_foldl_shift (l : List ℕ) (a : ℕ) :
    l.foldl (fun acc b => acc * 256 + b) a = a * 256 ^ l.length + beVal l := by
  induction l generalizing a with
  | nil => simp [beVal]
  | cons c l ih =>
    simp only [List.foldl_cons, List.length_cons, beVal]
    rw [ih (a * 256 + c), ih (0 * 256 + c)]
    ring

theorem beVal_cons (b : ℕ) (l : List ℕ) :
    beVal (b :: l) = b * 256 ^ l.length + beVal l := by
  simp only [beVal, List.foldl_cons, Nat.zero_mul, Nat.zero_add]
  exact beVal_foldl_shift l b

theorem beVal_beBytes (w n : ℕ) : beVal (beBytes w n) = n % 256 ^ w := by
  induction w generalizing n with
  | zero => simp [beBytes, beVal, Nat.mod_one]
  | succ w ih =>
    rw [beBytes, beVal_cons, beBytes_length, ih, pow_succ, Nat.mod_mul]
    ring

theorem beVal_beBytes_of_lt {w n : ℕ} (h : n < 256 ^ w) :
    beVal (beBytes w n) = n := by
  rw [beVal_beBytes, Nat.mod_eq_of_lt h]

/-- The byte `struct.pack("!b", d)` emits for a signed value `d`
(two's complement; defined for `-128 ≤ d ≤ 127`). -/
def sbyte (d : ℤ) : ℕ := (d % 256).toNat

/-- The signed value `struct.unpack("!b", bytes([b]))` recovers from a byte. -/
def sval (b : ℕ) : ℤ := if b < 128 then (b : ℤ) else (b : ℤ) - 256

theorem sval_sbyte_of_small {d : ℤ} (h0 : 0 ≤ d) (h1 : d ≤ 1) :
    sval (sbyte d) = d := by
  have hd : d % 256 = d := Int.emod_eq_of_lt h0 (by omega)
  simp only [sbyte, sval, hd]
  omega

/-- `reader.readexactly(n)`: the first `n` bytes and the rest of the stream,
or `None` (an `IncompleteReadError`) when the stream is too short. -/
def readExactly (n : ℕ) (s : List ℕ) : Option (List ℕ × List ℕ) :=
  if n ≤ s.length then some (s.take n, s.drop n) else none

theorem readExactly_append (l s : List ℕ) {n : ℕ} (h : l.length = n) :
    readExactly n (l ++ s) = some (l, s) := by
  subst h
  simp [readExactly, List.take_left, List.drop_left]

/-! ## Frame codec (`src/frames.py`) -/

/-- Flag bit `FLAG_PADDING = 1 << 0`. -/
def FLAG_PADDING : ℕ := 1

/-- Flag bit `FLAG_HANDSHAKE = 1 << 1`. -/
def FLAG_HANDSHAKE : ℕ := 2

/-- Flag bit `FLAG_FRAGMENT = 1 << 2`. -/
def FLAG_FRAGMENT : ℕ := 4

/-- Flag bit `FLAG_REDUNDANT = 1 << 3`. -/
def FLAG_REDUNDANT : ℕ := 8

/-- Flag bit `FLAG_ACK = 1 << 4`. -/
def FLAG_ACK : ℕ := 16

/-- Direction `DIR_UP = 0`. -/
def DIR_UP : ℤ := 0

/-- Direction `DIR_DOWN = 1`. -/
def DIR_DOWN : ℤ := 1

/-- The widths, in bytes, of the fields of `HEADER_STRUCT = struct.Struct("!I Q b B I H B H H I")`:
`session_id:u32, seq:u64, direction:i8, path_id:u8, window_id:u32, proto_id:u16,
extra_len:u8, frag_id:u16, frag_total:u16, payload_len:u32`. -/
def headerWidths : List ℕ := [4, 8, 1, 1, 4, 2, 1, 2, 2, 4]

/-- `HEADER_STRUCT.size`: the number of bytes of the packed fixed header. -/
def HEADER_SIZE : ℕ := headerWidths.sum

/-- The dataclass `Frame` of `frames.py`. `direction` is packed as a signed
byte (`b` format); all other integer fields are unsigned. -/
structure Frame where
  session_id : ℕ
  seq : ℕ
  direction : ℤ
  path_id : ℕ
  window_id : ℕ
  proto_id : ℕ
  flags : ℕ
  frag_id : ℕ
  frag_total : ℕ
  payload : List ℕ
  extra_header : List ℕ := []
deriving DecidableEq

/-- `HEADER_STRUCT.pack(...)` inside `Frame.encode`: the 10 header fields,
network byte order, no padding between fields. -/
def Frame.headerBytes (f : Frame) : List ℕ :=
  beBytes 4 f.session_id ++ beBytes 8 f.seq ++ beBytes 1 (sbyte f.direction) ++
  beBytes 1 f.path_id ++ beBytes 4 f.window_id ++ beBytes 2 f.proto_id ++
  beBytes 1 f.extra_header.length ++ beBytes 2 f.frag_id ++
  beBytes 2 f.frag_total ++ beBytes 4 f.payload.length

/-- `Frame.encode`: `header + extra_header + struct.pack("!B", flags) + payload`. -/
def Frame.encode (f : Frame) : List ℕ :=
  f.headerBytes ++ f.extra_header ++ beBytes 1 f.flags ++ f.payload

/-- `Frame.read_from`: read `HEADER_STRUCT.size` bytes, unpack the ten header
fields, then read `extra_len` bytes of extra header, one flags byte, and
`payload_len` bytes of payload.  Returns the parsed frame and the unread rest
of the stream, or `none` when the stream ends mid-frame. -/
def Frame.read_from (s : List ℕ) : Option (Frame × List ℕ) :=
  match readExactly HEADER_SIZE s with
  | none => none
  | some (hdr, s1) =>
    let session_id := beVal (hdr.take 4)
    let h1 := hdr.drop 4
    let seq := beVal (h1.take 8)
    let h2 := h1.drop 8
    let direction := sval (beVal (h2.take 1))
    let h3 := h2.drop 1
    let path_id := beVal (h3.take 1)
    let h4 := h3.drop 1
    let window_id := beVal (h4.take 4)
    let h5 := h4.drop 4
    let proto_id := beVal (h5.take 2)
    let h6 := h5.drop 2
    let extra_len := beVal (h6.take 1)
    let h7 := h6.drop 1
    let frag_id := beVal (h7.take 2)
    let h8 := h7.drop 2
    let frag_total := beVal (h8.take 2)
    let h9 := h8.drop 2
    let payload_len := beVal (h9.take 4)
    match readExactly extra_len s1 with
    | none => none
    | some (extra_header, s2) =>
      match readExactly 1 s2 with
      | none => none
      | some (flagsBytes, s3) =>
        let flags := beVal flagsBytes
        match readExactly payload_len s3 with
        | none => none
        | some (payload, s4) =>
          some ({ session_id := session_id, seq := seq, direction := direction,
                  path_id := path_id, window_id := window_id, proto_id := proto_id,
                  flags := flags, frag_id := frag_id, frag_total := frag_total,
                  payload := payload, extra_header := extra_header }, s4)

/-- A well-formed frame: every integer field fits its declared width,
`direction` is one of `DIR_UP`/`DIR_DOWN`, the extra header fits the
`extra_len:u8` field and the payload length fits `payload_len:u32`. -/
def Frame.WF (f : Frame) : Prop :=
  f.session_id < 2 ^ 32 ∧ f.seq < 2 ^ 64 ∧ 0 ≤ f.direction ∧ f.direction ≤ 1 ∧
  f.path_id < 2 ^ 8 ∧ f.window_id < 2 ^ 32 ∧ f.proto_id < 2 ^ 16 ∧
  f.flags < 2 ^ 8 ∧ f.frag_id < 2 ^ 16 ∧ f.frag_total < 2 ^ 16 ∧
  f.payload.length < 2 ^ 32 ∧ f.extra_header.length ≤ 255

@[simp] theorem Frame.headerBytes_length (f : Frame) :
    f.headerBytes.length = HEADER_SIZE := by
  simp [Frame.headerBytes, HEADER_SIZE, headerWidths]

theorem sbyte_lt (d : ℤ) : sbyte d < 256 := by
  simp only [sbyte]
  omega

@[simp] theorem beBytes_take (w n : ℕ) : (beBytes w n).take w = beBytes w n :=
  List.take_of_length_le (by simp)

/-- **C1** — Frame codec round-trip: for every well-formed frame (direction in
`0..1`, extra header at most 255 bytes, payload length within `u32`, all
integer fields within their declared widths), parsing the byte stream produced
by `Frame.encode` — followed by any continuation of the stream — returns the
identical frame, with the continuation untouched.  This covers empty payload,
empty extra header and the flags byte placed after the variable extra header. -/
theorem frame_codec_roundtrip (f : Frame) (rest : List ℕ) (h : f.WF) :
    Frame.read_from (f.encode ++ rest) = some (f, rest) := by
  obtain ⟨h1, h2, h3, h4, h5, h6, h7, h8, h9, h10, h11, h12⟩ := h
  have e1 : f.encode ++ rest
      = f.headerBytes ++ (f.extra_header ++ (beBytes 1 f.flags ++ (f.payload ++ rest))) := by
    simp [Frame.encode]
  rw [e1, Frame.read_from]
  rw [readExactly_append _ _ f.headerBytes_length]
  simp only [Frame.headerBytes, List.append_assoc, List.take_left', List.drop_left',
    beBytes_length, beBytes_take, beVal_beBytes]
  have hex : f.extra_header.length % 256 ^ 1 = f.extra_header.length :=
    Nat.mod_eq_of_lt (by omega)
  have hpl : f.payload.length % 256 ^ 4 = f.payload.length :=
    Nat.mod_eq_of_lt (by norm_num at h11 ⊢; omega)
  rw [hex, hpl]
  simp only [readExactly_append, beBytes_length, beVal_beBytes, Option.some.injEq,
    Prod.mk.injEq, Frame.mk.injEq]
  have hsb : sbyte f.direction % 256 ^ 1 = sbyte f.direction :=
    Nat.mod_eq_of_lt (by simpa using sbyte_lt f.direction)
  rw [hsb, sval_sbyte_of_small h3 h4]
  refine ⟨?_, trivial⟩
  have hfe : ∀ g : Frame, g.session_id = f.session_id → g.seq = f.seq →
      g.direction = f.direction → g.path_id = f.path_id → g.window_id = f.window_id →
      g.proto_id = f.proto_id → g.flags = f.flags → g.frag_id = f.frag_id →
      g.frag_total = f.frag_total → g.payload = f.payload →
      g.extra_header = f.extra_header → g = f := by
    rintro ⟨⟩ rfl rfl rfl rfl rfl rfl rfl rfl rfl rfl rfl
    rfl
  exact hfe _ (Nat.mod_eq_of_lt (lt_of_lt_of_le h1 (by norm_num)))
    (Nat.mod_eq_of_lt (lt_of_lt_of_le h2 (by norm_num))) rfl
    (Nat.mod_eq_of_lt (lt_of_lt_of_le h5 (by norm_num)))
    (Nat.mod_eq_of_lt (lt_of_lt_of_le h6 (by norm_num)))
    (Nat.mod_eq_of_lt (lt_of_lt_of_le h7 (by norm_num)))
    (Nat.mod_eq_of_lt (lt_of_lt_of_le h8 (by norm_num)))
    (Nat.mod_eq_of_lt (lt_of_lt_of_le h9 (by norm_num)))
    (Nat.mod_eq_of_lt (lt_of_lt_of_le h10 (by norm_num))) rfl rfl

/-- Witness for `frame_codec_roundtrip` at a concrete well-formed frame. -/
theorem frame_codec_roundtrip_witness :
    ({ session_id := 7, seq := 300, direction := 1, path_id := 2, window_id := 5,
       proto_id := 3, flags := 21, frag_id := 1, frag_total := 2,
       payload := [9, 8, 7], extra_header := [1, 255] } : Frame).WF ∧
    Frame.read_from
      (({ session_id := 7, seq := 300, direction := 1, path_id := 2, window_id := 5,
          proto_id := 3, flags := 21, frag_id := 1, frag_total := 2,
          payload := [9, 8, 7], extra_header := [1, 255] } : Frame).encode ++ [42])
      = some ({ session_id := 7, seq := 300, direction := 1, path_id := 2, window_id := 5,
                proto_id := 3, flags := 21, frag_id := 1, frag_total := 2,
                payload := [9, 8, 7], extra_header := [1, 255] }, [42]) := by
  constructor
  · constructor <;> norm_num [Frame.WF]
  · exact frame_codec_roundtrip _ [42] (by constructor <;> norm_num [Frame.WF])

/-- **C2** (counterexample) — the claim says the fixed frame header occupies
exactly 28 bytes, so that the flags byte of every frame sits at offset
`28 + extra_len`.  Both parts fail: `HEADER_STRUCT.size` is 29, and for the
concrete frame with all-zero fields, `flags = 255` and empty extra header, the
byte at offset `28 + extra_len = 28` of the encoding is 0 (the low byte of
`payload_len`), not the flags byte. -/
theorem header_size_28_counterexample :
    HEADER_SIZE ≠ 28 ∧
    ¬ (({ session_id := 0, seq := 0, direction := 0, path_id := 0,
          window_id := 0, proto_id := 0, flags := 255, frag_id := 0, frag_total := 0,
          payload := [], extra_header := [] } : Frame).encode[28 +
        ({ session_id := 0, seq := 0, direction := 0, path_id := 0,
           window_id := 0, proto_id := 0, flags := 255, frag_id := 0, frag_total := 0,
           payload := [], extra_header := [] } : Frame).extra_header.length]? =
      some 255) := by
  constructor
  · decide
  · decide

/-- **C2** (amended) — the fixed frame header (`session_id:u32, seq:u64,
direction:i8, path_id:u8, window_id:u32, proto_id:u16, extra_len:u8,
frag_id:u16, frag_total:u16, payload_len:u32`, network byte order, packed)
occupies exactly **29** bytes on the wire, so for every well-formed frame the
flags byte sits at offset `29 + extra_len`. -/
theorem header_size_and_flags_offset (f : Frame) (h : f.WF) :
    HEADER_SIZE = 29 ∧
    f.encode.length = 29 + f.extra_header.length + 1 + f.payload.length ∧
    f.encode[29 + f.extra_header.length]? = some f.flags := by
  obtain ⟨-, -, -, -, -, -, -, h8, -, -, -, -⟩ := h
  refine ⟨rfl, ?_, ?_⟩
  · simp [Frame.encode, HEADER_SIZE, headerWidths]
    omega
  · have e1 : f.encode
        = f.headerBytes ++ (f.extra_header ++ (beBytes 1 f.flags ++ f.payload)) := by
      simp [Frame.encode]
    have hlen : f.headerBytes.length = 29 := f.headerBytes_length
    rw [e1, List.getElem?_append_right (by omega)]
    have e2 : 29 + f.extra_header.length - f.headerBytes.length
        = f.extra_header.length := by omega
    rw [e2, List.getElem?_append_right (by omega), Nat.sub_self]
    have e3 : beBytes 1 f.flags = [f.flags % 256] := by
      simp [beBytes]
    rw [e3]
    simp [Nat.mod_eq_of_lt (show f.flags < 256 by omega)]

/-- Witness for `header_size_and_flags_offset` at a concrete well-formed frame. -/
theorem header_size_and_flags_offset_witness :
    HEADER_SIZE = 29 ∧
    ({ session_id := 1, seq := 2, direction := 0, path_id := 3, window_id := 4,
       proto_id := 5, flags := 6, frag_id := 0, frag_total := 1,
       payload := [77], extra_header := [9, 9, 9] } : Frame).encode.length = 29 + 3 + 1 + 1 ∧
    ({ session_id := 1, seq := 2, direction := 0, path_id := 3, window_id := 4,
       proto_id := 5, flags := 6, frag_id := 0, frag_total := 1,
       payload := [77], extra_header := [9, 9, 9] } : Frame).encode[29 + 3]? = some 6 := by
  have h := header_size_and_flags_offset
    { session_id := 1, seq := 2, direction := 0, path_id := 3, window_id := 4,
      proto_id := 5, flags := 6, frag_id := 0, frag_total := 1,
      payload := [77], extra_header := [9, 9, 9] }
    (by constructor <;> norm_num [Frame.WF])
  simpa using h

/-! ## Protocol families (`src/profiles.py`) -/

/-- The enum `ObfuscationMode` of `profiles.py`. -/
inductive ObfuscationMode where
  | NONE
  | XOR
  | XOR_REVERSE
deriving DecidableEq, Inhabited

/-- The dataclass `HandshakeSpec` of `profiles.py`. -/
structure HandshakeSpec where
  direction : ℤ
  size : ℕ
  delay_ms : ℕ
deriving DecidableEq, Inhabited

/-- The dataclass `ProtoVariant` of `profiles.py`. -/
structure ProtoVariant where
  variant_id : ℕ
  frame_sizes : List ℕ
  extra_header_range : ℕ × ℕ
  obfuscation_mode : ObfuscationMode
  padding_header : Bool
deriving DecidableEq, Inhabited

/-- The dataclass `ProtoFamily` of `profiles.py` (without its methods, which
are modelled as standalone functions below). -/
structure ProtoFamily where
  family_id : ℕ
  handshake : List HandshakeSpec
  variants : List ProtoVariant
deriving DecidableEq, Inhabited

/-- `ProtoFamily.encode_payload(payload, variant)` (the method reads only the
variant).  `key` is the draw of `random.randint(1, 255)`; it is only drawn —
and only prepended — when the payload is non-empty and the mode is not NONE. -/
def encode_payload (payload : List ℕ) (v : ProtoVariant) (key : ℕ) : List ℕ :=
  if payload = [] then payload
  else if v.obfuscation_mode = ObfuscationMode.NONE then payload
  else
    let obf := payload.map (fun b => b ^^^ key)
    let obf2 := if v.obfuscation_mode = ObfuscationMode.XOR_REVERSE then obf.reverse else obf
    key :: obf2

/-- `ProtoFamily.decode_payload(payload, variant)`: read the key byte, reverse
the rest if the mode is XOR_REVERSE, then XOR every byte with the key. -/
def decode_payload (payload : List ℕ) (v : ProtoVariant) : List ℕ :=
  match payload with
  | [] => payload
  | key :: data =>
    if v.obfuscation_mode = ObfuscationMode.NONE then key :: data
    else
      let data2 := if v.obfuscation_mode = ObfuscationMode.XOR_REVERSE then data.reverse else data
      data2.map (fun b => b ^^^ key)

theorem decode_encode_payload (p : List ℕ) (v : ProtoVariant) (key : ℕ) :
    decode_payload (encode_payload p v key) v = p := by
  rcases p with - | ⟨b, p⟩
  · simp [encode_payload, decode_payload]
  · rcases hm : v.obfuscation_mode with - | - | -
    · simp [encode_payload, decode_payload, hm]
    · simp [encode_payload, decode_payload, hm, List.map_map, Function.comp_def,
        Nat.xor_cancel_right]
    · simp [encode_payload, decode_payload, hm, List.map_map, Function.comp_def,
        Nat.xor_cancel_right]

/-- **C3** — Payload obfuscation round-trip: for every variant, every payload
and every key the XOR stage may draw (`random.randint(1, 255)`),
`decode_payload (encode_payload p v) v = p` — the reverse applied by the
encoder after the XOR in XOR_REVERSE mode is undone by the decoder before its
XOR — and in NONE mode `encode_payload` returns the payload unchanged. -/
theorem payload_obfuscation_roundtrip (v : ProtoVariant) (p : List ℕ) (key : ℕ)
    (hk1 : 1 ≤ key) (hk2 : key ≤ 255) :
    decode_payload (encode_payload p v key) v = p ∧
    (v.obfuscation_mode = ObfuscationMode.NONE → encode_payload p v key = p) := by
  refine ⟨decode_encode_payload p v key, fun hm => ?_⟩
  rcases p with - | ⟨b, p⟩ <;> simp [encode_payload, hm]

/-- Witness for `payload_obfuscation_roundtrip` at a concrete XOR_REVERSE
variant, payload and key. -/
theorem payload_obfuscation_roundtrip_witness :
    decode_payload
      (encode_payload [1, 2, 3]
        { variant_id := 0, frame_sizes := [200, 400, 800], extra_header_range := (4, 12),
          obfuscation_mode := ObfuscationMode.XOR_REVERSE, padding_header := true } 7)
      { variant_id := 0, frame_sizes := [200, 400, 800], extra_header_range := (4, 12),
        obfuscation_mode := ObfuscationMode.XOR_REVERSE, padding_header := true }
      = [1, 2, 3] :=
  (payload_obfuscation_roundtrip _ [1, 2, 3] 7 (by decide) (by decide)).1

/-- `default_profiles()` of `profiles.py`: the reference catalog of three
cover-protocol families. -/
def default_profiles : List ProtoFamily :=
  [ { family_id := 1,
      handshake := [ { direction := DIR_UP, size := 32, delay_ms := 5 },
                     { direction := DIR_DOWN, size := 24, delay_ms := 10 } ],
      variants := [ { variant_id := 0, frame_sizes := [256, 384, 512],
                      extra_header_range := (0, 4),
                      obfuscation_mode := ObfuscationMode.NONE, padding_header := false },
                    { variant_id := 1, frame_sizes := [200, 300, 500],
                      extra_header_range := (1, 6),
                      obfuscation_mode := ObfuscationMode.NONE, padding_header := true } ] },
    { family_id := 2,
      handshake := [ { direction := DIR_UP, size := 48, delay_ms := 3 },
                     { direction := DIR_UP, size := 16, delay_ms := 6 } ],
      variants := [ { variant_id := 0, frame_sizes := [300, 450, 600, 750],
                      extra_header_range := (2, 8),
                      obfuscation_mode := ObfuscationMode.XOR, padding_header := false },
                    { variant_id := 1, frame_sizes := [280, 420, 560],
                      extra_header_range := (4, 10),
                      obfuscation_mode := ObfuscationMode.XOR, padding_header := true } ] },
    { family_id := 3,
      handshake := [ { direction := DIR_DOWN, size := 40, delay_ms := 8 },
                     { direction := DIR_UP, size := 20, delay_ms := 5 } ],
      variants := [ { variant_id := 0, frame_sizes := [200, 400, 800],
                      extra_header_range := (4, 12),
                      obfuscation_mode := ObfuscationMode.XOR_REVERSE, padding_header := true },
                    { variant_id := 1, frame_sizes := [240, 480, 720],
                      extra_header_range := (2, 12),
                      obfuscation_mode := ObfuscationMode.XOR_REVERSE, padding_header := false } ] } ]

/-- `family.variants[i % len(family.variants)]` — the variant lookup used
throughout `obfuscation.py` and `profiles.py`. -/
def variantAt (vs : List ProtoVariant) (i : ℕ) : ProtoVariant :=
  vs.getD (i % vs.length) default

/-- `ProtoFamily.pick_extra_header(variant)`.  The random draws are explicit:
`body` is the `random.randbytes(length)` draw for
`length = random.randint(low, high)`, `pad_len` the `random.randint(1, 4)`
draw and `pad` the `random.randbytes(pad_len)` draw used when
`padding_header` is set. -/
def pick_extra_header (v : ProtoVariant) (body : List ℕ) (pad_len : ℕ) (pad : List ℕ) :
    List ℕ :=
  let padding := body
  let padding2 := if v.padding_header then (pad_len :: pad) ++ padding else padding
  v.variant_id :: padding2

/-! ## Protocol obfuscator (`src/obfuscation.py`) -/

/-- The dict `self.families = {family.family_id: family for family in default_profiles()}`
of `ProtoObfuscator`, as a lookup: `families.get(fid)`. -/
def familiesGet (fid : ℕ) : Option ProtoFamily :=
  default_profiles.find? (fun fam => fam.family_id == fid)

/-- The body of `ProtoObfuscator.apply` once the family is fetched: stamp
`proto_id` with the family id and replace the extra header with a fresh
`pick_extra_header` of the chosen variant. -/
def applyCore (fr : Frame) (family : ProtoFamily) (variant_id : ℕ)
    (body : List ℕ) (pad_len : ℕ) (pad : List ℕ) : Frame :=
  let variant := variantAt family.variants variant_id
  { fr with proto_id := family.family_id,
            extra_header := pick_extra_header variant body pad_len pad }

/-- `ProtoObfuscator.apply(frame, family_id, variant_id)`;
`self.pick_family(family_id)` raises `KeyError` on an unknown id, modelled as
`none`. -/
def ProtoObfuscator.apply (fr : Frame) (family_id variant_id : ℕ)
    (body : List ℕ) (pad_len : ℕ) (pad : List ℕ) : Option Frame :=
  (familiesGet family_id).map (fun family => applyCore fr family variant_id body pad_len pad)

/-- `ProtoObfuscator.encode_payload(frame, family_id, variant_id)`: unknown
family ids leave the frame unchanged, otherwise the payload is encoded with
`variants[variant_id % len(variants)]`. -/
def ProtoObfuscator.encode_payload (fr : Frame) (family_id variant_id : ℕ) (key : ℕ) :
    Frame :=
  match familiesGet family_id with
  | none => fr
  | some family =>
    let variant := variantAt family.variants variant_id
    { fr with payload := Spec2Proof.encode_payload fr.payload variant key }

/-- `ProtoObfuscator.decode_payload(frame)`: look the family up by the frame's
`proto_id` (unknown ids leave the frame unchanged), take the variant id from
the first byte of `extra_header` (0 when empty) modulo the number of variants,
and decode the payload with that variant. -/
def ProtoObfuscator.decode_payload (fr : Frame) : Frame :=
  match familiesGet fr.proto_id with
  | none => fr
  | some family =>
    let variant_id := fr.extra_header.headD 0
    let variant := variantAt family.variants variant_id
    { fr with payload := Spec2Proof.decode_payload fr.payload variant }

theorem pick_extra_header_headD (v : ProtoVariant) (body : List ℕ) (pad_len : ℕ)
    (pad : List ℕ) : (pick_extra_header v body pad_len pad).headD 0 = v.variant_id := by
  simp [pick_extra_header]

/-- In every family of the reference catalog, the `variant_id` stored in a
variant indexes that same variant back through `variants[id % len(variants)]`. -/
theorem variantAt_variant_id {family : ProtoFamily} (hmem : family ∈ default_profiles)
    (i : ℕ) :
    variantAt family.variants ((variantAt family.variants i).variant_id)
      = variantAt family.variants i := by
  have h2 := Nat.mod_two_eq_zero_or_one i
  simp only [default_profiles, List.mem_cons, List.not_mem_nil, or_false] at hmem
  rcases hmem with rfl | rfl | rfl <;>
    rcases h2 with h2 | h2 <;> simp [variantAt, h2]

/-- **C10** — Receiver-side variant selection: `ProtoObfuscator.decode_payload`
(1) returns the frame unchanged when `proto_id` matches no known family;
(2) reads the variant id from the first `extra_header` byte — which
`pick_extra_header`, used by `apply()`, always sets to the chosen variant's
id — treating an empty `extra_header` as variant 0 (`headD 0`);
(3) selects `variants[first_byte % len(variants)]` and decodes the payload
with it; and (4) consequently, a frame stamped by `apply` and payload-encoded
for a known family decodes back to its original payload. -/
theorem receiver_variant_selection :
    (∀ fr : Frame, familiesGet fr.proto_id = none →
      ProtoObfuscator.decode_payload fr = fr) ∧
    (∀ (v : ProtoVariant) (body : List ℕ) (pad_len : ℕ) (pad : List ℕ),
      (pick_extra_header v body pad_len pad).headD 0 = v.variant_id) ∧
    (∀ (fr : Frame) (family : ProtoFamily), familiesGet fr.proto_id = some family →
      ProtoObfuscator.decode_payload fr =
        { fr with payload := (Spec2Proof.decode_payload fr.payload
            (family.variants.getD (fr.extra_header.headD 0 % family.variants.length)
              default)) }) ∧
    (∀ (fr : Frame) (fid : ℕ) (family : ProtoFamily) (vid : ℕ)
        (body : List ℕ) (pad_len : ℕ) (pad : List ℕ) (key : ℕ),
      familiesGet fid = some family →
      (ProtoObfuscator.decode_payload
        (ProtoObfuscator.encode_payload
          (applyCore fr family vid body pad_len pad) fid vid key)).payload
        = fr.payload) := by
  refine ⟨?_, pick_extra_header_headD, ?_, ?_⟩
  · intro fr h
    simp [ProtoObfuscator.decode_payload, h]
  · intro fr family h
    simp [ProtoObfuscator.decode_payload, h, variantAt]
  · intro fr fid family vid body pad_len pad key h
    have hfid : family.family_id = fid := by
      have hp := List.find?_some h
      simpa using hp
    have hmem : family ∈ default_profiles := List.mem_of_find?_eq_some h
    simp only [ProtoObfuscator.encode_payload, h, applyCore]
    simp only [ProtoObfuscator.decode_payload, hfid, h]
    rw [pick_extra_header_headD, variantAt_variant_id hmem vid, decode_encode_payload]

/-- Witness for `receiver_variant_selection`: a frame stamped by `apply` for
family 3 (XOR_REVERSE) with variant counter 5 and payload-encoded with key 9
decodes back to its original payload. -/
theorem receiver_variant_selection_witness :
    (ProtoObfuscator.decode_payload
      (ProtoObfuscator.encode_payload
        (applyCore
          { session_id := 0, seq := 0, direction := 0, path_id := 0, window_id := 0,
            proto_id := 0, flags := 0, frag_id := 0, frag_total := 1,
            payload := [10, 20], extra_header := [] }
          { family_id := 3,
            handshake := [ { direction := DIR_DOWN, size := 40, delay_ms := 8 },
                           { direction := DIR_UP, size := 20, delay_ms := 5 } ],
            variants := [ { variant_id := 0, frame_sizes := [200, 400, 800],
                            extra_header_range := (4, 12),
                            obfuscation_mode := ObfuscationMode.XOR_REVERSE,
                            padding_header := true },
                          { variant_id := 1, frame_sizes := [240, 480, 720],
                            extra_header_range := (2, 12),
                            obfuscation_mode := ObfuscationMode.XOR_REVERSE,
                            padding_header := false } ] }
          5 [1, 2] 2 [3, 4]) 3 5 9)).payload = [10, 20] :=
  receiver_variant_selection.2.2.2 _ 3 _ 5 [1, 2] 2 [3, 4] 9 (by decide)

/-! ## Fragment reassembly (`src/frames.py`, class `FragmentBuffer`)

Python dicts keyed by integers are modelled as association lists in insertion
order with unique keys: `dictGet` is `d.get(k)` / `d[k]`, `dictSet` is
`d[k] = v`, `dictPop` is `d.pop(k, None)`. -/

/-- Dict lookup `d.get(k)`. -/
def dictGet {α : Type} (k : ℕ) : List (ℕ × α) → Option α
  | [] => none
  | (k2, v) :: rest => if k2 = k then some v else dictGet k rest

/-- Dict store `d[k] = v`: replace the existing entry or append a new one. -/
def dictSet {α : Type} (k : ℕ) (v : α) : List (ℕ × α) → List (ℕ × α)
  | [] => [(k, v)]
  | (k2, v2) :: rest => if k2 = k then (k, v) :: rest else (k2, v2) :: dictSet k v rest

/-- Dict removal `d.pop(k, None)`. -/
def dictPop {α : Type} (k : ℕ) : List (ℕ × α) → List (ℕ × α)
  | [] => []
  | (k2, v2) :: rest => if k2 = k then rest else (k2, v2) :: dictPop k rest

@[simp] theorem dictGet_dictSet_self {α : Type} (k : ℕ) (v : α) (l : List (ℕ × α)) :
    dictGet k (dictSet k v l) = some v := by
  induction l with
  | nil => simp [dictGet, dictSet]
  | cons p rest ih =>
    by_cases h : p.1 = k <;> simp [dictGet, dictSet, h, ih]

theorem dictGet_dictSet_ne {α : Type} {k k2 : ℕ} (v : α) (l : List (ℕ × α))
    (h : k2 ≠ k) : dictGet k2 (dictSet k v l) = dictGet k2 l := by
  have h2 : ¬ k = k2 := fun hh => h hh.symm
  induction l with
  | nil => simp [dictGet, dictSet, h2]
  | cons p rest ih =>
    rcases p with ⟨pk, pv⟩
    by_cases hp : pk = k
    · subst hp
      simp [dictGet, dictSet, h2]
    · by_cases hq : pk = k2 <;> simp [dictGet, dictSet, hp, hq, ih, h]

theorem dictSet_length_of_none {α : Type} {k : ℕ} (v : α) {l : List (ℕ × α)}
    (h : dictGet k l = none) : (dictSet k v l).length = l.length + 1 := by
  induction l with
  | nil => simp [dictSet]
  | cons p rest ih =>
    by_cases hp : p.1 = k
    · simp [dictGet, hp] at h
    · simp only [dictGet, hp, if_false] at h
      simp [dictSet, hp, ih h]

/-- The class `FragmentBuffer` of `frames.py`: `_buffers` maps a `seq` to the
partial map `frag_id → payload`; `_totals` records each `seq`'s first seen
`frag_total`. -/
structure FragmentBuffer where
  buffers : List (ℕ × List (ℕ × List ℕ))
  totals : List (ℕ × ℕ)
deriving DecidableEq

/-- The freshly constructed `FragmentBuffer()`. -/
def FragmentBuffer.empty : FragmentBuffer := { buffers := [], totals := [] }

/-- The `if frame.seq not in self._buffers` block of `FragmentBuffer.add`:
create the inner dict and record `frag_total` for a new `seq`. -/
def FragmentBuffer.ensure (fb : FragmentBuffer) (fr : Frame) : FragmentBuffer :=
  if (dictGet fr.seq fb.buffers).isNone then
    { buffers := dictSet fr.seq [] fb.buffers,
      totals := dictSet fr.seq fr.frag_total fb.totals }
  else fb

/-- `FragmentBuffer.add(frame)`: record the fragment; when the inner dict has
at least `_totals[seq]` entries, join `_buffers[seq][idx]` for
`idx in range(frame.frag_total)`, evict the `seq` and return the payload.
`none` models the `KeyError` Python raises when the join indexes a missing
`frag_id` (or `_totals` misses the `seq`). -/
def FragmentBuffer.add (fb : FragmentBuffer) (fr : Frame) :
    Option (FragmentBuffer × Bool × Option (List ℕ)) :=
  let fb1 := fb.ensure fr
  let inner2 := dictSet fr.frag_id fr.payload ((dictGet fr.seq fb1.buffers).getD [])
  let fb2 : FragmentBuffer := { fb1 with buffers := dictSet fr.seq inner2 fb1.buffers }
  match dictGet fr.seq fb2.totals with
  | none => none
  | some total =>
    if inner2.length ≥ total then
      match (List.range fr.frag_total).mapM (fun idx => dictGet idx inner2) with
      | none => none
      | some parts =>
        some ({ buffers := dictPop fr.seq fb2.buffers, totals := dictPop fr.seq fb2.totals },
              true, some parts.flatten)
    else
      some (fb2, false, none)

/-- Feed a list of frames to `FragmentBuffer.add` in order, collecting the
`(done, payload)` results. -/
def FragmentBuffer.runAdds (fb : FragmentBuffer) :
    List Frame → Option (FragmentBuffer × List (Bool × Option (List ℕ)))
  | [] => some (fb, [])
  | fr :: rest =>
    match fb.add fr with
    | none => none
    | some (fb2, done, payload) =>
      match fb2.runAdds rest with
      | none => none
      | some (fb3, outs) => some (fb3, (done, payload) :: outs)

/-- A fragment frame for the reassembler; `FragmentBuffer.add` reads only
`seq`, `frag_id`, `frag_total` and `payload`. -/
def mkFragFrame (seq frag_id frag_total : ℕ) (payload : List ℕ) : Frame :=
  { session_id := 0, seq := seq, direction := 0, path_id := 0, window_id := 0,
    proto_id := 0, flags := FLAG_FRAGMENT, frag_id := frag_id,
    frag_total := frag_total, payload := payload, extra_header := [] }

theorem mapM_eq_map_of_all_some {α : Type} (f : ℕ → Option α) (g : ℕ → α) :
    ∀ l : List ℕ, (∀ i ∈ l, f i = some (g i)) → l.mapM f = some (l.map g) := by
  intro l
  induction l with
  | nil => intro _; rfl
  | cons a l ih =>
    intro h
    rw [List.mapM_cons, h a (by simp), ih (fun i hi => h i (by simp [hi]))]
    rfl

theorem range_map_getD (chunks : List (List ℕ)) :
    (List.range chunks.length).map (fun i => chunks.getD i []) = chunks := by
  induction chunks with
  | nil => simp
  | cons c cs ih =>
    rw [List.length_cons, List.range_succ_eq_map]
    simpa [List.map_map, Function.comp_def] using ih

theorem mem_of_nodup_lt_length {l : List ℕ} {n : ℕ} (hn : l.Nodup)
    (hlt : ∀ i ∈ l, i < n) (hlen : l.length = n) : ∀ i, i < n → i ∈ l := by
  have hsub : l.toFinset ⊆ Finset.range n := by
    intro i hi
    simp only [List.mem_toFinset] at hi
    exact Finset.mem_range.mpr (hlt i hi)
  have hcard : (Finset.range n).card ≤ l.toFinset.card := by
    rw [Finset.card_range, List.toFinset_card_of_nodup hn, hlen]
  have heq : l.toFinset = Finset.range n := Finset.eq_of_subset_of_card_le hsub hcard
  intro i hi
  have hi2 : i ∈ l.toFinset := heq ▸ Finset.mem_range.mpr hi
  simpa [List.mem_toFinset] using hi2

/-- One `add` in the single-`seq` invariant state when the fragment does not
complete the set: the fragment is recorded and `(False, None)` is returned. -/
theorem add_step_incomplete (chunks : List (List ℕ)) (seq j : ℕ)
    (inner : List (ℕ × List ℕ)) (processed : List ℕ)
    (hlen : inner.length = processed.length)
    (hjnone : dictGet j inner = none)
    (hlt : processed.length + 1 < chunks.length) :
    FragmentBuffer.add ⟨[(seq, inner)], [(seq, chunks.length)]⟩
        (mkFragFrame seq j chunks.length (chunks.getD j []))
      = some (⟨[(seq, dictSet j (chunks.getD j []) inner)], [(seq, chunks.length)]⟩,
              false, none) := by
  have hi2 : (dictSet j (chunks.getD j []) inner).length = processed.length + 1 := by
    rw [dictSet_length_of_none _ hjnone, hlen]
  unfold FragmentBuffer.add FragmentBuffer.ensure
  simp only [mkFragFrame, dictGet, if_pos rfl, Option.isNone_some, Bool.false_eq_true,
    if_false, Option.getD_some, dictSet, ite_true]
  rw [hi2]
  simp only [ge_iff_le, if_neg (by omega : ¬ chunks.length ≤ processed.length + 1)]

/-- One `add` in the single-`seq` invariant state when the fragment is the
last missing one: the original byte string is assembled and the `seq` evicted. -/
theorem add_step_complete (chunks : List (List ℕ)) (seq j : ℕ)
    (inner : List (ℕ × List ℕ)) (processed : List ℕ)
    (hlen : inner.length = processed.length)
    (hget : ∀ i, dictGet i inner =
      if i ∈ processed then some (chunks.getD i []) else none)
    (hj : j ∉ processed)
    (heq : processed.length + 1 = chunks.length)
    (hall : ∀ i, i < chunks.length → i = j ∨ i ∈ processed) :
    FragmentBuffer.add ⟨[(seq, inner)], [(seq, chunks.length)]⟩
        (mkFragFrame seq j chunks.length (chunks.getD j []))
      = some (FragmentBuffer.empty, true, some chunks.flatten) := by
  have hjnone : dictGet j inner = none := by rw [hget j, if_neg hj]
  have hi2 : (dictSet j (chunks.getD j []) inner).length = processed.length + 1 := by
    rw [dictSet_length_of_none _ hjnone, hlen]
  have hget2 : ∀ i ∈ List.range chunks.length,
      dictGet i (dictSet j (chunks.getD j []) inner) = some (chunks.getD i []) := by
    intro i hi
    rcases hall i (List.mem_range.mp hi) with rfl | hip
    · exact dictGet_dictSet_self i (chunks.getD i []) inner
    · have hij : i ≠ j := fun hh => hj (hh ▸ hip)
      rw [dictGet_dictSet_ne _ _ hij, hget i, if_pos hip]
  have hmapM : (List.range chunks.length).mapM
      (fun idx => dictGet idx (dictSet j (chunks.getD j []) inner))
      = some chunks := by
    rw [mapM_eq_map_of_all_some _ (fun i => chunks.getD i []) _ hget2, range_map_getD]
  unfold FragmentBuffer.add FragmentBuffer.ensure
  simp only [mkFragFrame, dictGet, if_pos rfl, Option.isNone_some, Bool.false_eq_true,
    if_false, Option.getD_some, dictSet, ite_true]
  rw [hi2]
  simp only [ge_iff_le, if_pos (by omega : chunks.length ≤ processed.length + 1), hmapM]
  simp [dictPop, FragmentBuffer.empty]

/-- Feeding the remaining fragments from the single-`seq` invariant state
returns `(False, None)` on every call but the last and the reassembled
original on the last. -/
theorem runAdds_inv (chunks : List (List ℕ)) (seq : ℕ) :
    ∀ (rest processed : List ℕ) (inner : List (ℕ × List ℕ)),
      inner.length = processed.length →
      (∀ i, dictGet i inner =
        if i ∈ processed then some (chunks.getD i []) else none) →
      (processed ++ rest).Nodup →
      (∀ i ∈ processed ++ rest, i < chunks.length) →
      processed.length + rest.length = chunks.length →
      rest ≠ [] →
      FragmentBuffer.runAdds ⟨[(seq, inner)], [(seq, chunks.length)]⟩
          (rest.map (fun i => mkFragFrame seq i chunks.length (chunks.getD i [])))
        = some (FragmentBuffer.empty,
            List.replicate (rest.length - 1) (false, none)
              ++ [(true, some chunks.flatten)]) := by
  intro rest
  induction rest with
  | nil => intro _ _ _ _ _ _ _ hne; exact absurd rfl hne
  | cons j rest2 ih =>
    intro processed inner hlen hget hnd hbd hsum _
    have hndr : (processed ++ [j]).Nodup ∧ rest2.Nodup ∧
        ∀ i ∈ rest2, i ∉ processed ++ [j] := by
      rw [List.append_cons] at hnd
      rw [List.nodup_append] at hnd
      refine ⟨hnd.1, hnd.2.1, fun i hi hip => ?_⟩
      rcases hnd with ⟨-, -, hdisj⟩
      exact hdisj hip hi
    have hj : j ∉ processed := by
      have := hndr.1
      rw [List.nodup_append] at this
      rcases this with ⟨-, -, hdisj⟩
      exact fun hjp => hdisj hjp (by simp)
    rcases eq_or_ne rest2 [] with rfl | hrest2
    · have heq : processed.length + 1 = chunks.length := by
        simpa using hsum
      have hall : ∀ i, i < chunks.length → i = j ∨ i ∈ processed := by
        have hmem := mem_of_nodup_lt_length hndr.1
          (fun i hi => hbd i hi)
          (by simpa using heq)
        intro i hi
        rcases List.mem_append.mp (hmem i hi) with hip | hij
        · exact Or.inr hip
        · exact Or.inl (by simpa using hij)
      simp only [List.map_cons, List.map_nil, FragmentBuffer.runAdds,
        add_step_complete chunks seq j inner processed hlen hget hj heq hall]
      simp
    · have hjnone : dictGet j inner = none := by rw [hget j, if_neg hj]
      have hlt : processed.length + 1 < chunks.length := by
        have h1 : 1 ≤ rest2.length := by
          rcases rest2 with - | ⟨a, r⟩
          · exact absurd rfl hrest2
          · simp
        simp only [List.length_cons] at hsum
        omega
      have hstep := add_step_incomplete chunks seq j inner processed hlen hjnone hlt
      have hrec := ih (processed ++ [j]) (dictSet j (chunks.getD j []) inner)
        (by rw [dictSet_length_of_none _ hjnone, hlen]; simp)
        (by
          intro i
          rcases eq_or_ne i j with rfl | hij
          · rw [dictGet_dictSet_self, if_pos (by simp)]
          · rw [dictGet_dictSet_ne _ _ hij, hget i]
            by_cases hip : i ∈ processed <;> simp [hip, hij])
        (by rw [List.append_assoc]; simpa using hnd)
        (by
          intro i hi
          refine hbd i ?_
          rw [List.append_assoc] at hi
          simpa using hi)
        (by simp at hsum ⊢; omega)
        hrest2
      simp only [List.map_cons, FragmentBuffer.runAdds, hstep, hrec]
      have hr1 : 1 ≤ rest2.length := by
        rcases rest2 with - | ⟨a, r⟩
        · exact absurd rfl hrest2
        · simp
      have hrep : (false, (none : Option (List ℕ))) ::
          (List.replicate (rest2.length - 1) (false, none)
            ++ [(true, some chunks.flatten)])
          = List.replicate ((j :: rest2).length - 1) (false, none)
            ++ [(true, some chunks.flatten)] := by
        rw [List.length_cons]
        rw [show rest2.length + 1 - 1 = (rest2.length - 1) + 1 by omega]
        simp [List.replicate_succ]
      rw [← hrep]

/-- `FragmentBuffer().add` on the very first frame behaves like `add` on the
state the creation block just set up for that `seq`. -/
theorem add_empty_eq (fr : Frame) :
    FragmentBuffer.empty.add fr
      = FragmentBuffer.add ⟨[(fr.seq, [])], [(fr.seq, fr.frag_total)]⟩ fr := by
  unfold FragmentBuffer.add FragmentBuffer.ensure
  simp [FragmentBuffer.empty, dictGet, dictSet]

/-- **C7** — Reassembly: split any payload into `frag_total = chunks.length`
fragments sharing one `seq` with distinct `frag_id`s `0..frag_total-1`; feed
the fragments to `FragmentBuffer.add` in any permutation.  Every call but the
last returns `(False, None)`, and the call delivering the last missing
fragment returns `(True, original payload)` (and evicts the `seq`). -/
theorem reassembly_any_permutation (chunks : List (List ℕ)) (seq : ℕ) (ids : List ℕ)
    (hperm : ids.Perm (List.range chunks.length)) (hne : chunks ≠ []) :
    FragmentBuffer.empty.runAdds
        (ids.map (fun i => mkFragFrame seq i chunks.length (chunks.getD i [])))
      = some (FragmentBuffer.empty,
          List.replicate (chunks.length - 1) (false, none)
            ++ [(true, some chunks.flatten)]) := by
  have hlen : ids.length = chunks.length := by
    simpa using hperm.length_eq
  have hnd : ids.Nodup := hperm.nodup_iff.mpr (List.nodup_range _)
  have hbd : ∀ i ∈ ids, i < chunks.length := fun i hi =>
    List.mem_range.mp (hperm.mem_iff.mp hi)
  have hn1 : 1 ≤ chunks.length := by
    rcases chunks with - | ⟨c, cs⟩
    · exact absurd rfl hne
    · simp
  rcases ids with - | ⟨j, ids2⟩
  · simp at hlen
    omega
  · have hrun := runAdds_inv chunks seq (j :: ids2) [] []
      rfl (by intro i; simp [dictGet])
      (by simpa using hnd) (by simpa using hbd) (by simpa using hlen)
      (by simp)
    simp only [List.map_cons, FragmentBuffer.runAdds] at hrun ⊢
    rw [add_empty_eq]
    have hs : (mkFragFrame seq j chunks.length (chunks.getD j [])).seq = seq := rfl
    have ht : (mkFragFrame seq j chunks.length (chunks.getD j [])).frag_total
        = chunks.length := rfl
    rw [hs, ht]
    simpa [hlen] using hrun

/-- Witness for `reassembly_any_permutation`: three chunks delivered in the
order `2, 0, 1` produce `(False, None)`, `(False, None)`, then the original
`[1, 2] ++ [] ++ [3]`. -/
theorem reassembly_any_permutation_witness :
    FragmentBuffer.empty.runAdds
        ([2, 0, 1].map (fun i => mkFragFrame 9 i 3 ([[1, 2], [], [3]].getD i [])))
      = some (FragmentBuffer.empty,
          [(false, none), (false, none), (true, some [1, 2, 3])]) := by
  have h := reassembly_any_permutation [[1, 2], [], [3]] 9 [2, 0, 1]
    (by decide) (by decide)
  simpa using h

/-- **C8** — The code does NOT reject a later fragment whose `frag_total`
differs from the recorded one: the recorded total (2) stays immutable, but the
mismatched fragment (`frag_total = 1`) is silently accepted, the completion
test fires against the recorded total while the join ranges over the incoming
frame's `frag_total`, and `add` delivers `[170]` — a payload assembled under
the wrong total — instead of raising a protocol error. -/
theorem mismatched_frag_total_accepted :
    FragmentBuffer.empty.runAdds [mkFragFrame 7 0 2 [170], mkFragFrame 7 1 1 [187]]
      = some (FragmentBuffer.empty, [(false, none), (true, some [170])]) := by
  decide

/-! ## Strategy controller (`src/strategy.py`)

Python floats are exact rationals here; the per-snapshot dicts
(`metrics`, `weights`, `behavior_by_path`, ...) are association lists in dict
iteration order with distinct keys.  The one call to the `random` module,
`random.uniform(0.9, 1.1)` once per size bin, is the explicit argument
`uniform : ℕ → ℚ` giving the draw for each bin index. -/

/-- One value of the per-path metrics snapshot `{"loss": .., "rtt_ms": ..}`. -/
structure Stats where
  loss : ℚ
  rtt_ms : ℚ
deriving DecidableEq

/-- The `metrics` argument of `StrategyEngine.evaluate`. -/
abbrev Metrics := List (ℕ × Stats)

/-- The dataclass `BehaviorParams` of `behavior.py`. -/
structure BehaviorParams where
  size_bins : List ℤ
  q_dist : List ℚ
  padding_alpha : ℚ
  jitter_ms : ℤ
  rate_bytes_per_sec : ℤ
  burst_size : ℕ
  obfuscation_level : ℕ
  enable_shaping : Bool
  enable_padding : Bool
  enable_pacing : Bool
  enable_jitter : Bool
  fixed_q_dist : Option (List ℚ) := none
deriving DecidableEq

/-- The dataclass `StrategyOutput` of `strategy.py`. -/
structure StrategyOutput where
  weights : List (ℕ × ℚ)
  behavior_by_path : List (ℕ × BehaviorParams)
  family_by_path : List (ℕ × ℕ)
  variant_by_path : List (ℕ × ℕ)
  obfuscation_level : ℕ
  trigger : String
  action : String
  adaptive_flags : List (String × Bool)
deriving DecidableEq

/-- The configuration and internal counters of `StrategyEngine`
(`_family_index` and `_variant_seed` are the two internal counters). -/
structure StrategyEngine where
  size_bins : List ℤ
  base_padding : ℚ
  base_jitter : ℤ
  family_ids : List ℕ
  base_rate : ℤ
  obfuscation_level : ℕ
  mode : String
  proto_switch_period : ℕ
  adaptive_paths : Bool
  adaptive_behavior : Bool
  adaptive_proto : Bool
  family_index : ℕ
  variant_seed : ℕ
deriving DecidableEq

/-- The shaping knobs set by the obfuscation-level preset if/elif chain of
`evaluate` (local variables `padding, jitter, rate, drift, burst` and the four
enables before the per-path loop). -/
structure Preset where
  padding : ℚ
  jitter : ℤ
  rate : ℤ
  drift : ℚ
  burst : ℕ
  enable_shaping : Bool
  enable_padding : Bool
  enable_pacing : Bool
  enable_jitter : Bool
deriving DecidableEq

/-- The level preset chain of `evaluate`: L0 zeroes everything and doubles the
rate, L1 is `1.2·base`, L2 is `base`, any other level `0.8·base`. -/
def StrategyEngine.levelPreset (e : StrategyEngine) : Preset :=
  if e.obfuscation_level = 0 then
    { padding := 0, jitter := 0, rate := e.base_rate * 2, drift := 0, burst := 1,
      enable_shaping := false, enable_padding := false,
      enable_pacing := false, enable_jitter := false }
  else if e.obfuscation_level = 1 then
    { padding := e.base_padding, jitter := e.base_jitter,
      rate := pyInt ((e.base_rate : ℚ) * (12/10)), drift := 1/50, burst := 4,
      enable_shaping := true, enable_padding := true,
      enable_pacing := true, enable_jitter := true }
  else if e.obfuscation_level = 2 then
    { padding := e.base_padding, jitter := e.base_jitter, rate := e.base_rate,
      drift := 1/20, burst := 6,
      enable_shaping := true, enable_padding := true,
      enable_pacing := true, enable_jitter := true }
  else
    { padding := e.base_padding, jitter := e.base_jitter,
      rate := pyInt ((e.base_rate : ℚ) * (8/10)), drift := 2/25, burst := 8,
      enable_shaping := true, enable_padding := true,
      enable_pacing := true, enable_jitter := true }

/-- `mean_loss`: the average of `stats["loss"]` over the metrics dict,
`sum(...) / max(len(metrics), 1)`. -/
def meanLoss (metrics : Metrics) : ℚ :=
  (metrics.map (fun p => p.2.loss)).sum / ((max metrics.length 1 : ℕ) : ℚ)

/-- `mean_rtt`: the average of `stats["rtt_ms"]` over the metrics dict. -/
def meanRtt (metrics : Metrics) : ℚ :=
  (metrics.map (fun p => p.2.rtt_ms)).sum / ((max metrics.length 1 : ℕ) : ℚ)

/-- The overload-damping step of `evaluate`: when `mean_loss > 0.2` or
`mean_rtt > 250`, `padding = max(0.01, padding*0.5)`,
`jitter = max(5, int(jitter*0.5))`, `rate = int(rate*0.8)`. -/
def dampPreset (p : Preset) (mean_loss mean_rtt : ℚ) : Preset :=
  if mean_loss > 1/5 ∨ mean_rtt > 250 then
    { p with padding := max (1/100) (p.padding * (1/2)),
             jitter := max 5 (pyInt ((p.jitter : ℚ) * (1/2))),
             rate := pyInt ((p.rate : ℚ) * (8/10)) }
  else p

/-- `size_bins = [int(b * random.uniform(0.9, 1.1)) for b in self.size_bins]`;
`uniform i` is the draw for bin index `i`. -/
def sizeBinsJitter (bins : List ℤ) (uniform : ℕ → ℚ) : List ℤ :=
  bins.enum.map (fun ib => pyInt ((ib.2 : ℚ) * uniform ib.1))

/-- `q_dist = [1 / len(size_bins) for _ in size_bins]` over the jittered bins. -/
def qDist (size_bins : List ℤ) : List ℚ :=
  size_bins.map (fun _ => 1 / (size_bins.length : ℚ))

/-- The per-path `family_id, variant_id` assignment of the loop in `evaluate`
(`family_index`, `variant_seed` are the already-advanced counters). -/
def pathFamilyVariant (e : StrategyEngine) (family_index variant_seed pid : ℕ) :
    ℕ × ℕ :=
  if e.mode = "baseline_delay" then (1, 0)
  else if e.mode = "baseline_padding" then (1, 0)
  else if e.adaptive_proto = true then
    (e.family_ids.getD ((family_index + pid) % e.family_ids.length) 0,
     (variant_seed + pid) % 2)
  else (1, 0)

/-- The four enable toggles as the per-path loop leaves them: `baseline_delay`
keeps only pacing and jitter, `baseline_padding` keeps only shaping and
padding, and in normal mode `adaptive_behavior = false` disables all four
while `adaptive_behavior = true` keeps the level preset's values.  The tuple
is `(shaping, padding, pacing, jitter)`. -/
def pathEnables (e : StrategyEngine) (p : Preset) : Bool × Bool × Bool × Bool :=
  if e.mode = "baseline_delay" then (false, false, true, true)
  else if e.mode = "baseline_padding" then (true, true, false, false)
  else if e.adaptive_behavior = true then
    (p.enable_shaping, p.enable_padding, p.enable_pacing, p.enable_jitter)
  else (false, false, false, false)

/-- The `BehaviorParams` built for one path by the loop in `evaluate`
(`damped` holds the preset after overload damping; the record does not depend
on the path id). -/
def pathBehavior (e : StrategyEngine) (damped : Preset) (size_bins : List ℤ)
    (q_dist : List ℚ) : BehaviorParams :=
  let en := pathEnables e damped
  { size_bins := size_bins, q_dist := q_dist,
    padding_alpha := damped.padding, jitter_ms := damped.jitter,
    rate_bytes_per_sec := damped.rate, burst_size := damped.burst,
    obfuscation_level := e.obfuscation_level,
    enable_shaping := en.1, enable_padding := en.2.1,
    enable_pacing := en.2.2.1, enable_jitter := en.2.2.2,
    fixed_q_dist := if en.1 then none else some q_dist }

/-- `StrategyEngine.evaluate(metrics, timeout_events, window_id)`.  Returns
the `StrategyOutput` and the engine with its two counters advanced (Python
mutates `self`).  `window_id % proto_switch_period` is Nat mod; Python raises
on `proto_switch_period = 0`, so only positive periods are meaningful. -/
def StrategyEngine.evaluate (e : StrategyEngine) (metrics : Metrics)
    (timeout_events : ℤ) (window_id : ℕ) (uniform : ℕ → ℚ) :
    StrategyOutput × StrategyEngine :=
  let weights : List (ℕ × ℚ) := metrics.map (fun p =>
    (p.1, if e.adaptive_paths = true ∧ (p.2.loss > 1/10 ∨ p.2.rtt_ms > 200)
          then 1 * (1/2) else 1))
  let damped := dampPreset e.levelPreset (meanLoss metrics) (meanRtt metrics)
  let size_bins := sizeBinsJitter e.size_bins uniform
  let q_dist := qDist size_bins
  let trig : String :=
    if e.adaptive_proto = true then
      if timeout_events > 2 then "timeout"
      else if window_id % e.proto_switch_period = 0 then "periodic"
      else "none"
    else "none"
  let counters : ℕ × ℕ :=
    if e.adaptive_proto = true ∧ trig ≠ "none" then
      ((e.family_index + 1) % e.family_ids.length, e.variant_seed + 1)
    else (e.family_index, e.variant_seed)
  let action0 := if trig ≠ "none" then "switch_proto" else "static"
  let action1 :=
    if e.adaptive_paths = true ∧ weights.any (fun w => decide (w.2 < 1))
    then "update_weights" else action0
  let action2 := if e.adaptive_behavior = true then "update_behavior" else action1
  ({ weights := weights,
     behavior_by_path :=
       metrics.map (fun p => (p.1, pathBehavior e damped size_bins q_dist)),
     family_by_path :=
       metrics.map (fun p => (p.1, (pathFamilyVariant e counters.1 counters.2 p.1).1)),
     variant_by_path :=
       metrics.map (fun p => (p.1, (pathFamilyVariant e counters.1 counters.2 p.1).2)),
     obfuscation_level := e.obfuscation_level,
     trigger := trig,
     action := action2,
     adaptive_flags := [("adaptive_paths", e.adaptive_paths),
       ("adaptive_behavior", e.adaptive_behavior),
       ("adaptive_proto", e.adaptive_proto)] },
   { e with family_index := counters.1, variant_seed := counters.2 })

@[simp] theorem sizeBinsJitter_length (bins : List ℤ) (u : ℕ → ℚ) :
    (sizeBinsJitter bins u).length = bins.length := by
  simp [sizeBinsJitter]

theorem qDist_sizeBinsJitter (bins : List ℤ) (u v : ℕ → ℚ) :
    qDist (sizeBinsJitter bins u) = qDist (sizeBinsJitter bins v) := by
  unfold qDist
  rw [List.map_const', List.map_const', sizeBinsJitter_length, sizeBinsJitter_length]

/-- Forget the `size_bins` field — the only component of a `BehaviorParams`
produced by `evaluate` that depends on the `random.uniform` draws. -/
def BehaviorParams.eraseBins (p : BehaviorParams) : BehaviorParams :=
  { p with size_bins := [] }

theorem eraseBins_pathBehavior (e : StrategyEngine) (d : Preset)
    (b1 b2 : List ℤ) (q : List ℚ) :
    (pathBehavior e d b1 q).eraseBins = (pathBehavior e d b2 q).eraseBins := rfl

/-- **C4** (counterexample) — the claim says `evaluate` is a pure function of
`(metrics, timeout_events, window_id)` once the two internal counters are
fixed, size bins included.  It is not: `evaluate` draws
`random.uniform(0.9, 1.1)` per size bin, so from one and the same engine state
and identical arguments, two runs whose draws are `0.9` and `1.1` return
different `StrategyOutput` values (size bins `[90]` versus `[110]`). -/
theorem controller_determinism_counterexample :
    ¬ (StrategyEngine.evaluate
        { size_bins := [100], base_padding := 1/20, base_jitter := 20,
          family_ids := [1, 2, 3], base_rate := 50000, obfuscation_level := 2,
          mode := "normal", proto_switch_period := 3, adaptive_paths := false,
          adaptive_behavior := false, adaptive_proto := false,
          family_index := 0, variant_seed := 0 }
        [(0, { loss := 0, rtt_ms := 0 })] 0 1 (fun _ => 9/10)
      = StrategyEngine.evaluate
        { size_bins := [100], base_padding := 1/20, base_jitter := 20,
          family_ids := [1, 2, 3], base_rate := 50000, obfuscation_level := 2,
          mode := "normal", proto_switch_period := 3, adaptive_paths := false,
          adaptive_behavior := false, adaptive_proto := false,
          family_index := 0, variant_seed := 0 }
        [(0, { loss := 0, rtt_ms := 0 })] 0 1 (fun _ => 11/10)) := by
  intro h
  have hcon := congrArg
    (fun o : StrategyOutput × StrategyEngine =>
      o.1.behavior_by_path.map (fun p => p.2.size_bins)) h
  simp only [StrategyEngine.evaluate, pathBehavior, sizeBinsJitter, qDist,
    List.enum, List.enumFrom, List.map_cons, List.map_nil] at hcon
  norm_num [pyInt] at hcon

/-- **C4** (amended) — Controller determinism modulo the size-bin draws: with
the two internal counters fixed, every component of
`evaluate(metrics, timeout_events, window_id)` except the `size_bins` list
inside each `BehaviorParams` is a pure function of its inputs — two calls
from identical engine state with identical arguments agree on the weights,
family/variant assignments, obfuscation level, trigger, action, adaptive
flags, advanced counters, and on every `BehaviorParams` field other than
`size_bins`, whatever the two runs' `random.uniform(0.9, 1.1)` draws are. -/
theorem controller_determinism_mod_bins (e : StrategyEngine) (metrics : Metrics)
    (timeout_events : ℤ) (window_id : ℕ) (f g : ℕ → ℚ) :
    (e.evaluate metrics timeout_events window_id f).1.weights
      = (e.evaluate metrics timeout_events window_id g).1.weights ∧
    (e.evaluate metrics timeout_events window_id f).1.behavior_by_path.map
        (fun p => (p.1, p.2.eraseBins))
      = (e.evaluate metrics timeout_events window_id g).1.behavior_by_path.map
        (fun p => (p.1, p.2.eraseBins)) ∧
    (e.evaluate metrics timeout_events window_id f).1.family_by_path
      = (e.evaluate metrics timeout_events window_id g).1.family_by_path ∧
    (e.evaluate metrics timeout_events window_id f).1.variant_by_path
      = (e.evaluate metrics timeout_events window_id g).1.variant_by_path ∧
    (e.evaluate metrics timeout_events window_id f).1.obfuscation_level
      = (e.evaluate metrics timeout_events window_id g).1.obfuscation_level ∧
    (e.evaluate metrics timeout_events window_id f).1.trigger
      = (e.evaluate metrics timeout_events window_id g).1.trigger ∧
    (e.evaluate metrics timeout_events window_id f).1.action
      = (e.evaluate metrics timeout_events window_id g).1.action ∧
    (e.evaluate metrics timeout_events window_id f).1.adaptive_flags
      = (e.evaluate metrics timeout_events window_id g).1.adaptive_flags ∧
    (e.evaluate metrics timeout_events window_id f).2
      = (e.evaluate metrics timeout_events window_id g).2 := by
  refine ⟨rfl, ?_, rfl, rfl, rfl, rfl, rfl, rfl, rfl⟩
  simp only [StrategyEngine.evaluate, List.map_map]
  rw [qDist_sizeBinsJitter e.size_bins f g]
  apply List.map_congr_left
  intro p _
  simp only [Function.comp_apply, Prod.mk.injEq, true_and]
  exact eraseBins_pathBehavior e _ (sizeBinsJitter e.size_bins f)
    (sizeBinsJitter e.size_bins g) _

/-- **C5** (counterexample) — the claim says obfuscation level 0 forces all
four enable toggles off and `padding_alpha = 0` for *every* metrics snapshot
and *every* mode.  At level 0 in mode `baseline_delay` with `mean_rtt = 300`,
the returned `BehaviorParams` has `enable_pacing = true` (the mode override
re-enables pacing/jitter after the level preset) — and overload damping has
also raised `padding_alpha` to `0.01`. -/
theorem level0_claim_counterexample :
    ¬ (∀ pb ∈ (StrategyEngine.evaluate
        { size_bins := [100], base_padding := 1/20, base_jitter := 20,
          family_ids := [1, 2, 3], base_rate := 50000, obfuscation_level := 0,
          mode := "baseline_delay", proto_switch_period := 3, adaptive_paths := true,
          adaptive_behavior := true, adaptive_proto := true,
          family_index := 0, variant_seed := 0 }
        [(0, { loss := 0, rtt_ms := 300 })] 0 1 (fun _ => 1)).1.behavior_by_path,
        pb.2.enable_shaping = false ∧ pb.2.enable_padding = false ∧
        pb.2.enable_pacing = false ∧ pb.2.enable_jitter = false ∧
        pb.2.padding_alpha = 0) := by
  intro h
  simp only [StrategyEngine.evaluate, List.map_cons, List.map_nil] at h
  have h0 := h _ (List.mem_singleton_self _)
  rcases h0 with ⟨-, -, hpac, -, -⟩
  simp [pathBehavior, pathEnables] at hpac

/-- **C5** (amended) — Level 0 silences shaping in the normal modes: whenever
the controller is configured with `obfuscation_level = 0` and its mode is
neither `baseline_delay` nor `baseline_padding` (those mode overrides
re-enable pacing/jitter resp. shaping/padding), and the snapshot does not
trip overload damping (`mean_loss ≤ 0.2` and `mean_rtt ≤ 250`, which would
raise `padding_alpha` to `0.01`), every returned `BehaviorParams` has
`enable_shaping = enable_padding = enable_pacing = enable_jitter = false` and
`padding_alpha = 0`. -/
theorem level0_silences_shaping (e : StrategyEngine) (metrics : Metrics)
    (timeout_events : ℤ) (window_id : ℕ) (uniform : ℕ → ℚ)
    (hlevel : e.obfuscation_level = 0)
    (hm1 : e.mode ≠ "baseline_delay") (hm2 : e.mode ≠ "baseline_padding")
    (hloss : meanLoss metrics ≤ 1/5) (hrtt : meanRtt metrics ≤ 250) :
    ∀ pb ∈ (e.evaluate metrics timeout_events window_id uniform).1.behavior_by_path,
      pb.2.enable_shaping = false ∧ pb.2.enable_padding = false ∧
      pb.2.enable_pacing = false ∧ pb.2.enable_jitter = false ∧
      pb.2.padding_alpha = 0 := by
  intro pb hpb
  simp only [StrategyEngine.evaluate, List.mem_map] at hpb
  obtain ⟨p, -, rfl⟩ := hpb
  have hdamp : dampPreset e.levelPreset (meanLoss metrics) (meanRtt metrics)
      = e.levelPreset := by
    unfold dampPreset
    rw [if_neg]
    push_neg
    exact ⟨hloss, hrtt⟩
  have hpre : e.levelPreset =
      { padding := 0, jitter := 0, rate := e.base_rate * 2, drift := 0, burst := 1,
        enable_shaping := false, enable_padding := false,
        enable_pacing := false, enable_jitter := false } := by
    simp [StrategyEngine.levelPreset, hlevel]
  rw [hdamp, hpre]
  cases hab : e.adaptive_behavior <;>
    simp [pathBehavior, pathEnables, hm1, hm2, hab]

/-- Witness for `level0_silences_shaping`: level 0 in mode `normal` with a
calm snapshot gives all toggles off and zero padding. -/
theorem level0_silences_shaping_witness :
    meanRtt [((0 : ℕ), { loss := 0, rtt_ms := 100 })] ≤ 250 ∧
    ∀ pb ∈ (StrategyEngine.evaluate
        { size_bins := [100], base_padding := 1/20, base_jitter := 20,
          family_ids := [1, 2, 3], base_rate := 50000, obfuscation_level := 0,
          mode := "normal", proto_switch_period := 3, adaptive_paths := true,
          adaptive_behavior := true, adaptive_proto := true,
          family_index := 0, variant_seed := 0 }
        [(0, { loss := 0, rtt_ms := 100 })] 0 1 (fun _ => 1)).1.behavior_by_path,
      pb.2.enable_shaping = false ∧ pb.2.enable_padding = false ∧
      pb.2.enable_pacing = false ∧ pb.2.enable_jitter = false ∧
      pb.2.padding_alpha = 0 :=
  ⟨by norm_num [meanRtt],
   level0_silences_shaping _ _ 0 1 _ rfl (by decide) (by decide)
     (by norm_num [meanLoss]) (by norm_num [meanRtt])⟩

/-- **C6** — Overload damping: whenever `mean_loss > 0.2` or `mean_rtt > 250`,
every `BehaviorParams` returned by `evaluate` carries the level-preset values
damped as `padding = max(0.01, padding·0.5)`, `jitter = max(5, int(jitter·0.5))`
and `rate = int(rate·0.8)`. -/
theorem overload_damping (e : StrategyEngine) (metrics : Metrics)
    (timeout_events : ℤ) (window_id : ℕ) (uniform : ℕ → ℚ)
    (hover : meanLoss metrics > 1/5 ∨ meanRtt metrics > 250) :
    ∀ pb ∈ (e.evaluate metrics timeout_events window_id uniform).1.behavior_by_path,
      pb.2.padding_alpha = max (1/100) (e.levelPreset.padding * (1/2)) ∧
      pb.2.jitter_ms = max 5 (pyInt ((e.levelPreset.jitter : ℚ) * (1/2))) ∧
      pb.2.rate_bytes_per_sec = pyInt ((e.levelPreset.rate : ℚ) * (8/10)) := by
  intro pb hpb
  simp only [StrategyEngine.evaluate, List.mem_map] at hpb
  obtain ⟨p, -, rfl⟩ := hpb
  have hdamp : dampPreset e.levelPreset (meanLoss metrics) (meanRtt metrics)
      = { e.levelPreset with
            padding := max (1/100) (e.levelPreset.padding * (1/2)),
            jitter := max 5 (pyInt ((e.levelPreset.jitter : ℚ) * (1/2))),
            rate := pyInt ((e.levelPreset.rate : ℚ) * (8/10)) } := by
    unfold dampPreset
    rw [if_pos hover]
  rw [hdamp]
  exact ⟨rfl, rfl, rfl⟩

/-- Witness for `overload_damping`, the spec's synthetic scenario: level 2,
`base_padding = 0.1`, `base_jitter = 20`, `base_rate = 50000`,
`mean_rtt = 300`; the controller outputs `padding_alpha = 0.05`,
`jitter_ms = 10`, `rate_bytes_per_sec = 40000` on every path. -/
theorem overload_damping_witness :
    meanRtt [((0 : ℕ), { loss := 0, rtt_ms := 300 })] > 250 ∧
    ∀ pb ∈ (StrategyEngine.evaluate
        { size_bins := [100], base_padding := 1/10, base_jitter := 20,
          family_ids := [1, 2, 3], base_rate := 50000, obfuscation_level := 2,
          mode := "normal", proto_switch_period := 3, adaptive_paths := true,
          adaptive_behavior := true, adaptive_proto := true,
          family_index := 0, variant_seed := 0 }
        [(0, { loss := 0, rtt_ms := 300 })] 0 1 (fun _ => 1)).1.behavior_by_path,
      pb.2.padding_alpha = 1/20 ∧ pb.2.jitter_ms = 10 ∧
      pb.2.rate_bytes_per_sec = 40000 := by
  refine ⟨by norm_num [meanRtt], ?_⟩
  intro pb hpb
  have h := overload_damping
    { size_bins := [100], base_padding := 1/10, base_jitter := 20,
      family_ids := [1, 2, 3], base_rate := 50000, obfuscation_level := 2,
      mode := "normal", proto_switch_period := 3, adaptive_paths := true,
      adaptive_behavior := true, adaptive_proto := true,
      family_index := 0, variant_seed := 0 }
    [(0, { loss := 0, rtt_ms := 300 })] 0 1 (fun _ => 1)
    (Or.inr (by norm_num [meanRtt])) pb hpb
  obtain ⟨h1, h2, h3⟩ := h
  refine ⟨?_, ?_, ?_⟩
  · rw [h1]
    norm_num [StrategyEngine.levelPreset]
  · rw [h2]
    norm_num [StrategyEngine.levelPreset, pyInt]
  · rw [h3]
    norm_num [StrategyEngine.levelPreset, pyInt]

/-! ## Behavior shaper (`src/behavior.py`)

One path's `BehaviorState` with the path's `BehaviorParams` held fixed; the
`random` draws of `make_padding_frames` (`sample_target_len` results and
`random.randbytes`) are explicit arguments. -/

/-- The dataclass `BehaviorState` of `behavior.py` (per path, reset each
window to this zeroed shape by `start_window`). -/
structure BehaviorState where
  window_id : ℕ
  real_bytes : ℤ := 0
  padding_bytes : ℤ := 0
  padding_budget : ℤ := 0
  burst_count : ℕ := 0
  last_ts : ℚ := 0
  tokens : ℚ := 0
deriving DecidableEq

/-- `BehaviorShaper.note_real_bytes(path_id, size)` on that path's state:
accumulate real bytes and recompute
`padding_budget = int(real_bytes * padding_alpha)`. -/
def note_real_bytes (alpha : ℚ) (st : BehaviorState) (size : ℤ) : BehaviorState :=
  let rb := st.real_bytes + size
  { st with real_bytes := rb, padding_budget := pyInt ((rb : ℚ) * alpha) }

/-- The `for _ in range(max_frames)` loop of `make_padding_frames`: `samples`
lists the successive `sample_target_len` draws, one per iteration (so
`samples.length = max_frames`); `randBytes n` stands for the
`random.randbytes(n)` draw (Python raises on a negative size, so `toNat` is
only exercised with non-negative sizes).  Each emitted frame copies the
template's routing fields, sets `flags |= FLAG_PADDING` and
`frag_id = 0, frag_total = 1`, and advances `padding_bytes`. -/
def paddingLoop (template : Frame) (randBytes : ℕ → List ℕ) :
    BehaviorState → ℤ → List ℤ → BehaviorState × List Frame
  | st, _, [] => (st, [])
  | st, remaining, s :: rest =>
    if remaining ≤ 0 then (st, [])
    else
      let size := min s remaining
      let pad_frame : Frame :=
        { session_id := template.session_id, seq := template.seq,
          direction := template.direction, path_id := template.path_id,
          window_id := template.window_id, proto_id := template.proto_id,
          flags := template.flags ||| FLAG_PADDING, frag_id := 0, frag_total := 1,
          payload := randBytes size.toNat, extra_header := template.extra_header }
      let st2 := { st with padding_bytes := st.padding_bytes + size }
      let next := paddingLoop template randBytes st2 (remaining - size) rest
      (next.1, pad_frame :: next.2)

/-- `BehaviorShaper.make_padding_frames(template_frame, max_frames=3)` on the
template's path state: nothing is emitted when padding is disabled or
`padding_bytes >= padding_budget`; otherwise up to `max_frames` padding frames
of length `min(sample_target_len(), remaining)` are emitted against the
remaining budget. -/
def make_padding_frames (p : BehaviorParams) (st : BehaviorState)
    (template : Frame) (samples : List ℤ) (randBytes : ℕ → List ℕ) :
    BehaviorState × List Frame :=
  if ¬ p.enable_padding = true then (st, [])
  else if st.padding_bytes ≥ st.padding_budget then (st, [])
  else paddingLoop template randBytes st (st.padding_budget - st.padding_bytes) samples

/-- The states of one path reachable from the zeroed per-window state through
any sequence of `note_real_bytes` (frame sizes are non-negative) and
`make_padding_frames` calls, the path's parameters held fixed. -/
inductive ShaperReach (p : BehaviorParams) : BehaviorState → Prop where
  | start (window_id : ℕ) : ShaperReach p { window_id := window_id }
  | note (st : BehaviorState) (size : ℤ) (hsize : 0 ≤ size) :
      ShaperReach p st → ShaperReach p (note_real_bytes p.padding_alpha st size)
  | pad (st : BehaviorState) (template : Frame) (samples : List ℤ)
      (randBytes : ℕ → List ℕ) :
      ShaperReach p st →
      ShaperReach p (make_padding_frames p st template samples randBytes).1

theorem paddingLoop_bound (template : Frame) (randBytes : ℕ → List ℕ) :
    ∀ (samples : List ℤ) (st : BehaviorState) (remaining : ℤ),
      (paddingLoop template randBytes st remaining samples).1.padding_bytes
          ≤ st.padding_bytes + max remaining 0 ∧
      (paddingLoop template randBytes st remaining samples).1.real_bytes
          = st.real_bytes ∧
      (paddingLoop template randBytes st remaining samples).1.padding_budget
          = st.padding_budget := by
  intro samples
  induction samples with
  | nil =>
    intro st remaining
    exact ⟨by simp only [paddingLoop]; omega, rfl, rfl⟩
  | cons s rest ih =>
    intro st remaining
    by_cases hr : remaining ≤ 0
    · have hstep : paddingLoop template randBytes st remaining (s :: rest) = (st, []) := by
        simp only [paddingLoop, hr, if_true]
      rw [hstep]
      exact ⟨by show st.padding_bytes ≤ st.padding_bytes + max remaining 0; omega,
        rfl, rfl⟩
    · have hstep : (paddingLoop template randBytes st remaining (s :: rest)).1
          = (paddingLoop template randBytes
              { st with padding_bytes := st.padding_bytes + min s remaining }
              (remaining - min s remaining) rest).1 := by
        simp only [paddingLoop, hr, if_false]
      rw [hstep]
      obtain ⟨h1, h2, h3⟩ := ih
        { st with padding_bytes := st.padding_bytes + min s remaining }
        (remaining - min s remaining)
      refine ⟨?_, by simpa using h2, by simpa using h3⟩
      simp only at h1
      omega

/-- **C9** — Padding budget invariant: with `padding_alpha ≥ 0`, every path
state reachable through `note_real_bytes` and `make_padding_frames` satisfies
`padding_bytes ≤ padding_budget` and
`padding_budget = floor(real_bytes · padding_alpha)` — `make_padding_frames`
never emits past the budget — and on any state it returns the empty frame list
when padding is disabled or the budget is already reached. -/
theorem padding_budget_invariant (p : BehaviorParams) (halpha : 0 ≤ p.padding_alpha)
    {st : BehaviorState} (hreach : ShaperReach p st) :
    (st.padding_bytes ≤ st.padding_budget ∧ 0 ≤ st.real_bytes ∧
      st.padding_budget = ⌊(st.real_bytes : ℚ) * p.padding_alpha⌋) ∧
    (∀ (st2 : BehaviorState) (template : Frame) (samples : List ℤ)
        (randBytes : ℕ → List ℕ),
      (p.enable_padding = false →
        (make_padding_frames p st2 template samples randBytes).2 = []) ∧
      (st2.padding_budget ≤ st2.padding_bytes →
        (make_padding_frames p st2 template samples randBytes).2 = [])) := by
  constructor
  · induction hreach with
    | start w =>
      refine ⟨le_refl 0, le_refl 0, ?_⟩
      norm_num
    | note st size hsize hr ih =>
      obtain ⟨hpb, hrb, hbud⟩ := ih
      have hrb2 : (0 : ℤ) ≤ st.real_bytes + size := add_nonneg hrb hsize
      have hcast : (0 : ℚ) ≤ ((st.real_bytes + size : ℤ) : ℚ) := by
        exact_mod_cast hrb2
      have hprod : (0 : ℚ) ≤ ((st.real_bytes + size : ℤ) : ℚ) * p.padding_alpha :=
        mul_nonneg hcast halpha
      have hbud2 : (note_real_bytes p.padding_alpha st size).padding_budget
          = ⌊((st.real_bytes + size : ℤ) : ℚ) * p.padding_alpha⌋ := by
        simp only [note_real_bytes]
        exact pyInt_of_nonneg hprod
      refine ⟨?_, by simpa [note_real_bytes] using hrb2, ?_⟩
      · have hmono : ⌊(st.real_bytes : ℚ) * p.padding_alpha⌋
            ≤ ⌊((st.real_bytes + size : ℤ) : ℚ) * p.padding_alpha⌋ := by
          apply Int.floor_le_floor
          apply mul_le_mul_of_nonneg_right _ halpha
          exact_mod_cast by omega
        have hpb2 : (note_real_bytes p.padding_alpha st size).padding_bytes
            = st.padding_bytes := rfl
        rw [hpb2, hbud2]
        omega
      · simpa [note_real_bytes] using hbud2
    | pad st template samples randBytes hr ih =>
      obtain ⟨hpb, hrb, hbud⟩ := ih
      by_cases hen : p.enable_padding = true
      · by_cases hfull : st.padding_bytes ≥ st.padding_budget
        · simpa [make_padding_frames, hen, hfull] using ⟨hpb, hrb, hbud⟩
        · obtain ⟨h1, h2, h3⟩ := paddingLoop_bound template randBytes samples st
            (st.padding_budget - st.padding_bytes)
          have hres : (make_padding_frames p st template samples randBytes).1
              = (paddingLoop template randBytes st
                  (st.padding_budget - st.padding_bytes) samples).1 := by
            simp [make_padding_frames, hen, hfull]
          rw [hres]
          refine ⟨by omega, by omega, ?_⟩
          rw [h2, h3, hbud]
      · simpa [make_padding_frames, hen] using ⟨hpb, hrb, hbud⟩
  · intro st2 template samples randBytes
    constructor
    · intro hdis
      simp [make_padding_frames, hdis]
    · intro hfull
      by_cases hen : p.enable_padding = true <;>
        simp [make_padding_frames, hen, ge_iff_le, hfull]

/-- Witness for `padding_budget_invariant`: with `padding_alpha = 1/2`, after
noting 10 real bytes (budget 5) and one `make_padding_frames` call sampling
`[4, 4, 4]`, the reached state still satisfies `padding_bytes ≤ padding_budget`. -/
theorem padding_budget_invariant_witness :
    (0 : ℚ) ≤ 1/2 ∧
    (make_padding_frames
        { size_bins := [64], q_dist := [1], padding_alpha := 1/2, jitter_ms := 0,
          rate_bytes_per_sec := 1, burst_size := 1, obfuscation_level := 2,
          enable_shaping := true, enable_padding := true, enable_pacing := true,
          enable_jitter := true, fixed_q_dist := none }
        (note_real_bytes (1/2) { window_id := 0 } 10)
        (mkFragFrame 0 0 1 []) [4, 4, 4] (fun n => List.replicate n 0)).1.padding_bytes
      ≤ (make_padding_frames
        { size_bins := [64], q_dist := [1], padding_alpha := 1/2, jitter_ms := 0,
          rate_bytes_per_sec := 1, burst_size := 1, obfuscation_level := 2,
          enable_shaping := true, enable_padding := true, enable_pacing := true,
          enable_jitter := true, fixed_q_dist := none }
        (note_real_bytes (1/2) { window_id := 0 } 10)
        (mkFragFrame 0 0 1 []) [4, 4, 4] (fun n => List.replicate n 0)).1.padding_budget := by
  refine ⟨by norm_num, ?_⟩
  have h := padding_budget_invariant
    { size_bins := [64], q_dist := [1], padding_alpha := 1/2, jitter_ms := 0,
      rate_bytes_per_sec := 1, burst_size := 1, obfuscation_level := 2,
      enable_shaping := true, enable_padding := true, enable_pacing := true,
      enable_jitter := true, fixed_q_dist := none }
    (by norm_num)
    (ShaperReach.pad _ (mkFragFrame 0 0 1 []) [4, 4, 4] (fun n => List.replicate n 0)
      (ShaperReach.note _ 10 (by norm_num) (ShaperReach.start 0)))
  exact h.1.1

end Spec2Proof
